import Mathlib

/-!
Shallow embedding of the `newtodo` backend (src/backend/index.js): an Express
application over MongoDB exposing quote and todo resources plus a static SPA
fallback.  Request bodies are modelled as JSON-ish values, the database as an
explicit state record, mongoose calls as state-passing functions that may
signal cast/validation errors, and each route handler as a pure function from
database state and request data to an outcome (optional HTTP response, new
database state, list of storage operations issued).
-/

namespace NewTodo

/-- JSON-ish scalar values that can appear in a request body field. -/
inductive JVal
  | jnull
  | jbool (b : Bool)
  | jnum (n : Int)
  | jstr (s : String)
  deriving DecidableEq, Repr

/-- JavaScript truthiness of a `JVal`. -/
def jsTruthy : JVal → Bool
  | .jnull => false
  | .jbool b => b
  | .jnum n => n != 0
  | .jstr s => s != ""

/-- JS `x || ''` where a missing field reads as `undefined` (falsy). -/
def jsOrEmptyStr : Option JVal → JVal
  | none => .jstr ""
  | some v => if jsTruthy v then v else .jstr ""

/-- ASCII whitespace stripped by `String.prototype.trim`. -/
def isSpaceChar (c : Char) : Bool :=
  c == ' ' || c == '\t' || c == '\n' || c == '\r'

/-- Drop leading and trailing whitespace from a character list. -/
def trimData (l : List Char) : List Char :=
  ((l.dropWhile isSpaceChar).reverse.dropWhile isSpaceChar).reverse

/-- JS string trim: drop leading and trailing whitespace.  Also models the
mongoose schema `trim: true` setter. -/
def trimStr (s : String) : String :=
  ⟨trimData s.data⟩

/-- JS `v.trim()`: defined on strings; calling it on any non-string value
raises a TypeError, modelled as `Except.error`. -/
def jsTrim : JVal → Except Unit String
  | .jstr s => .ok (trimStr s)
  | _ => .error ()

/-- A stored todo document. -/
structure Todo where
  id : Nat
  text : String
  completed : Bool
  createdAt : Nat
  updatedAt : Nat
  deriving DecidableEq, Repr

/-- A stored quote document. -/
structure Quote where
  id : Nat
  text : String
  author : Option String
  createdAt : Nat
  updatedAt : Nat
  deriving DecidableEq, Repr

/-- Database state: the two collections, the next identifier the store will
assign, and a logical clock used for `createdAt`/`updatedAt` timestamps. -/
structure DB where
  todos : List Todo
  quotes : List Quote
  nextId : Nat
  clock : Nat
  deriving DecidableEq, Repr

def emptyDB : DB := ⟨[], [], 0, 0⟩

/-- Hexadecimal digit test for ObjectId validity. -/
def isHexDigit (c : Char) : Bool :=
  (('0' ≤ c) && (c ≤ '9')) || (('a' ≤ c) && (c ≤ 'f')) || (('A' ≤ c) && (c ≤ 'F'))

def hexVal (c : Char) : Nat :=
  if ('0' ≤ c) && (c ≤ '9') then c.toNat - '0'.toNat
  else if ('a' ≤ c) && (c ≤ 'f') then c.toNat - 'a'.toNat + 10
  else c.toNat - 'A'.toNat + 10

/-- A well-formed MongoDB ObjectId is a 24-character hex string. -/
def isValidObjectId (s : String) : Bool :=
  s.length == 24 && s.data.all isHexDigit

def hexToNat (s : String) : Nat :=
  s.data.foldl (fun acc c => 16 * acc + hexVal c) 0

/-- Casting a route parameter to an ObjectId: malformed strings fail to cast
(mongoose raises a `CastError`). -/
def parseObjectId (s : String) : Option Nat :=
  if isValidObjectId s then some (hexToNat s) else none

/-- The storage operations a handler can issue against MongoDB. -/
inductive StorageOp
  | todoFind
  | todoCreate (text : String)
  | todoFindByIdAndUpdate (id : String)
  | todoFindByIdAndDelete (id : String)
  | quoteAggregateSample
  | quoteCreate (text : String)
  | quoteInsertMany (count : Nat)
  deriving DecidableEq, Repr

/-- Errors a storage call can raise: ObjectId cast failure or mongoose schema
validation failure. -/
inductive StorageErr
  | castError
  | validationError
  deriving DecidableEq, Repr

/-- `Todo.create(\x7b text \x7d)`: the schema trims the text, requires it
non-empty, defaults `completed` to `false`, and assigns identifier and
timestamps. -/
def todoCreate (db : DB) (text : String) : Except StorageErr (Todo × DB) :=
  let t := trimStr text
  if t = "" then .error .validationError
  else
    let doc : Todo := ⟨db.nextId, t, false, db.clock, db.clock⟩
    .ok (doc, { db with todos := db.todos ++ [doc], nextId := db.nextId + 1,
                        clock := db.clock + 1 })

/-- Descending creation-time order on todos. -/
def createdDesc (a b : Todo) : Prop := b.createdAt ≤ a.createdAt

instance : DecidableRel createdDesc := fun _ _ => Nat.decLe _ _

instance : IsTotal Todo createdDesc :=
  ⟨fun a b => Nat.le_total b.createdAt a.createdAt⟩

instance : IsTrans Todo createdDesc :=
  ⟨fun _ _ _ h1 h2 => Nat.le_trans h2 h1⟩

/-- `Todo.find().sort(...)` with `createdAt: -1`: all todos, most recently
created first. -/
def todoFindSorted (db : DB) : List Todo :=
  List.insertionSort createdDesc db.todos

/-- The partial-update document built by the PATCH handler. -/
structure TodoUpdates where
  text : Option String
  completed : Option Bool
  deriving DecidableEq, Repr

def TodoUpdates.isEmpty (u : TodoUpdates) : Bool :=
  u.text.isNone && u.completed.isNone

/-- Apply an update document to a stored todo, bumping `updatedAt`. -/
def applyTodoUpdates (u : TodoUpdates) (now : Nat) (t : Todo) : Todo :=
  { t with text := u.text.getD t.text,
           completed := u.completed.getD t.completed,
           updatedAt := now }

/-- `Todo.findByIdAndUpdate(id, updates, \x7b new: true, runValidators: true \x7d)`:
cast the identifier (CastError when malformed), find the document, apply the
updates (validators reject an empty text), return the post-update document. -/
def todoFindByIdAndUpdate (db : DB) (idStr : String) (u : TodoUpdates) :
    Except StorageErr (Option Todo × DB) :=
  match parseObjectId idStr with
  | none => .error .castError
  | some n =>
    if (u.text.map trimStr) = some "" then .error .validationError
    else
      match db.todos.find? (fun t => t.id == n) with
      | none => .ok (none, db)
      | some t =>
        let t2 := applyTodoUpdates u db.clock t
        .ok (some t2,
          { db with todos := db.todos.map (fun u2 => if u2.id == n then t2 else u2),
                    clock := db.clock + 1 })

/-- `Todo.findByIdAndDelete(id)`: cast the identifier (CastError when
malformed), remove the matching document if any, return it. -/
def todoFindByIdAndDelete (db : DB) (idStr : String) :
    Except StorageErr (Option Todo × DB) :=
  match parseObjectId idStr with
  | none => .error .castError
  | some n =>
    match db.todos.find? (fun t => t.id == n) with
    | none => .ok (none, db)
    | some t =>
      .ok (some t, { db with todos := db.todos.eraseP (fun u => u.id == n) })

/-- One element of a batch quote insert: the `text`/`author` properties read
off an arbitrary JSON object. -/
structure QuoteInput where
  text : Option JVal
  author : Option JVal
  deriving DecidableEq, Repr

/-- Mongoose cast of a field value to the schema type `String`. -/
def castToString : Option JVal → Option String
  | some (.jstr s) => some s
  | some (.jnum n) => some (toString n)
  | some (.jbool b) => some (cond b "true" "false")
  | some .jnull => none
  | none => none

/-- Schema validation of one quote document: `text` must cast to a string and
be non-empty after the trim setter; `author` is optional and trimmed. -/
def validateQuoteInput (q : QuoteInput) : Option (String × Option String) :=
  match castToString q.text with
  | none => none
  | some s =>
    if trimStr s = "" then none
    else some (trimStr s, (castToString q.author).map trimStr)

/-- Insert already-validated quote documents one after another, assigning
identifiers and timestamps. -/
def insertQuotesFrom : List (String × Option String) → DB → List Quote × DB
  | [], db => ([], db)
  | (t, a) :: rest, db =>
    let q : Quote := ⟨db.nextId, t, a, db.clock, db.clock⟩
    let step := insertQuotesFrom rest
      { db with quotes := db.quotes ++ [q], nextId := db.nextId + 1,
                clock := db.clock + 1 }
    (q :: step.1, step.2)

/-- `Quote.insertMany(docs)`: validates every document first; any validation
failure rejects the whole batch with nothing inserted, otherwise all
documents are inserted. -/
def quoteInsertMany (db : DB) (items : List QuoteInput) :
    Except StorageErr (List Quote × DB) :=
  match items.mapM validateQuoteInput with
  | none => .error .validationError
  | some vs => .ok (insertQuotesFrom vs db)

/-- `Quote.create(\x7b text, author \x7d)` for the single-item path. -/
def quoteCreateStore (db : DB) (text : String) (author : Option JVal) :
    Except StorageErr (Quote × DB) :=
  match validateQuoteInput ⟨some (.jstr text), author⟩ with
  | none => .error .validationError
  | some v =>
    let q : Quote := ⟨db.nextId, v.1, v.2, db.clock, db.clock⟩
    .ok (q, { db with quotes := db.quotes ++ [q], nextId := db.nextId + 1,
                      clock := db.clock + 1 })

/-- `Quote.aggregate([$sample of size 1])`, with the random draw supplied as
the parameter `r`: empty collection yields the empty list, otherwise a
one-element list holding the document at index `r mod size`. -/
def quoteSample (db : DB) (r : Nat) : List Quote :=
  (db.quotes[r % db.quotes.length]?).toList

/-- JSON response bodies the handlers produce. -/
inductive RespBody
  | msg (s : String)
  | todoDoc (t : Todo)
  | todoList (ts : List Todo)
  | quoteDoc (q : Quote)
  | quoteList (qs : List Quote)
  | deletedTodo (id : String)
  deriving DecidableEq, Repr

/-- An HTTP response: status code and JSON body. -/
structure Response where
  status : Nat
  body : RespBody
  deriving DecidableEq, Repr

/-- Result of running a handler: the response sent (`none` when the handler
threw synchronously outside every try/catch, so no response is produced), the
database state afterwards, and the storage operations issued. -/
structure Outcome where
  resp : Option Response
  db : DB
  ops : List StorageOp
  deriving DecidableEq, Repr

/-- Status code of an outcome, when a response was sent. -/
def Outcome.status (o : Outcome) : Option Nat :=
  o.resp.map Response.status

/-- Request body of the todo routes. -/
structure TodoBody where
  text : Option JVal
  completed : Option JVal
  deriving DecidableEq, Repr

/-- `POST /api/todos`.  Note `(req.body?.text || '').trim()` runs before the
try block: a truthy non-string text raises an uncaught TypeError. -/
def postTodo (db : DB) (body : TodoBody) : Outcome :=
  match jsTrim (jsOrEmptyStr body.text) with
  | .error _ => ⟨none, db, []⟩
  | .ok text =>
    if text = "" then ⟨some ⟨400, .msg "Text is required"⟩, db, []⟩
    else
      match todoCreate db text with
      | .error _ => ⟨some ⟨500, .msg "Failed to create todo"⟩, db, [.todoCreate text]⟩
      | .ok (t, db2) => ⟨some ⟨201, .todoDoc t⟩, db2, [.todoCreate text]⟩

/-- `GET /api/todos`. -/
def getTodos (db : DB) : Outcome :=
  ⟨some ⟨200, .todoList (todoFindSorted db)⟩, db, [.todoFind]⟩

/-- The `completed` update field: only a boolean value is accepted, anything
else is ignored. -/
def patchCompleted (body : TodoBody) : Option Bool :=
  match body.completed with
  | some (.jbool b) => some b
  | _ => none

/-- Shared tail of the PATCH handler once the update document is built. -/
def patchTodoRun (db : DB) (idStr : String) (u : TodoUpdates) : Outcome :=
  if u.isEmpty then ⟨some ⟨400, .msg "No valid fields to update"⟩, db, []⟩
  else
    match todoFindByIdAndUpdate db idStr u with
    | .error _ =>
      ⟨some ⟨500, .msg "Failed to update todo"⟩, db, [.todoFindByIdAndUpdate idStr]⟩
    | .ok (none, db2) =>
      ⟨some ⟨404, .msg "Todo not found"⟩, db2, [.todoFindByIdAndUpdate idStr]⟩
    | .ok (some t, db2) =>
      ⟨some ⟨200, .todoDoc t⟩, db2, [.todoFindByIdAndUpdate idStr]⟩

/-- `PATCH /api/todos/:id`: a string text is trimmed and must be non-empty, a
non-string text is skipped; a boolean completed is taken, anything else
skipped; an empty update document is a 400 validation error. -/
def patchTodo (db : DB) (idStr : String) (body : TodoBody) : Outcome :=
  match body.text with
  | some (.jstr s) =>
    if trimStr s = "" then ⟨some ⟨400, .msg "Text cannot be empty"⟩, db, []⟩
    else patchTodoRun db idStr ⟨some (trimStr s), patchCompleted body⟩
  | _ => patchTodoRun db idStr ⟨none, patchCompleted body⟩

/-- `DELETE /api/todos/:id`. -/
def deleteTodo (db : DB) (idStr : String) : Outcome :=
  match todoFindByIdAndDelete db idStr with
  | .error _ =>
    ⟨some ⟨500, .msg "Failed to delete todo"⟩, db, [.todoFindByIdAndDelete idStr]⟩
  | .ok (none, db2) =>
    ⟨some ⟨404, .msg "Todo not found"⟩, db2, [.todoFindByIdAndDelete idStr]⟩
  | .ok (some _, db2) =>
    ⟨some ⟨200, .deletedTodo idStr⟩, db2, [.todoFindByIdAndDelete idStr]⟩

/-- The `quotes` field of a POST /api/quotes body: either a JSON array of
objects, or any non-array value. -/
inductive QuotesField
  | arr (items : List QuoteInput)
  | nonArray (v : JVal)
  deriving DecidableEq, Repr

/-- Request body of `POST /api/quotes`. -/
structure QuotesBody where
  text : Option JVal
  author : Option JVal
  quotes : Option QuotesField
  deriving DecidableEq, Repr

/-- `POST /api/quotes`: when `quotes` is an array, `insertMany` is issued
directly; otherwise the single-item path trims the text inside the try block
(a TypeError there is caught as a 500) and requires it non-empty. -/
def postQuotes (db : DB) (body : QuotesBody) : Outcome :=
  match body.quotes with
  | some (.arr items) =>
    match quoteInsertMany db items with
    | .error _ =>
      ⟨some ⟨500, .msg "Failed to insert quotes"⟩, db, [.quoteInsertMany items.length]⟩
    | .ok (qs, db2) =>
      ⟨some ⟨201, .quoteList qs⟩, db2, [.quoteInsertMany items.length]⟩
  | _ =>
    match jsTrim (jsOrEmptyStr body.text) with
    | .error _ => ⟨some ⟨500, .msg "Failed to insert quotes"⟩, db, []⟩
    | .ok t =>
      if t = "" then ⟨some ⟨400, .msg "Text is required"⟩, db, []⟩
      else
        match quoteCreateStore db t body.author with
        | .error _ =>
          ⟨some ⟨500, .msg "Failed to insert quotes"⟩, db, [.quoteCreate t]⟩
        | .ok (q, db2) => ⟨some ⟨201, .quoteDoc q⟩, db2, [.quoteCreate t]⟩

/-- `GET /api/quotes/random`. -/
def getRandomQuote (db : DB) (r : Nat) : Outcome :=
  match quoteSample db r with
  | [] => ⟨some ⟨404, .msg "No quotes found"⟩, db, [.quoteAggregateSample]⟩
  | q :: _ => ⟨some ⟨200, .quoteDoc q⟩, db, [.quoteAggregateSample]⟩

/-- HTTP methods the application's routing distinguishes. -/
inductive Method
  | GET | HEAD | POST | PATCH | DELETE | PUT | OPTIONS
  deriving DecidableEq, Repr

/-- `app.get(...)` and `express.static` both handle HEAD in addition to GET. -/
def matchesGet (m : Method) : Bool :=
  m == .GET || m == .HEAD

/-- Where the routing layer sends a request. -/
inductive RouteTarget
  | corsPreflight
  | health
  | quotesRandom
  | quotesCreate
  | todosList
  | todosCreate
  | todosUpdate (id : String)
  | todosDelete (id : String)
  | staticAsset (segs : List String)
  | indexFallback
  | expressNotFound
  deriving DecidableEq, Repr

/-- Recognise an `/api/todos/:id` path and extract the identifier segment. -/
def todoIdSeg : List String → Option String
  | ["api", "todos", id] => some id
  | _ => none

/-- Paths that belong to a defined API route (for some method). -/
def isApiPath (p : List String) : Bool :=
  p == ["api", "health"] || p == ["api", "quotes", "random"] ||
  p == ["api", "quotes"] || p == ["api", "todos"] || (todoIdSeg p).isSome

/-- The routing layer, in registration order: the cors middleware first
(answering every OPTIONS preflight itself with 204), then the API routes
(`app.get` routes also match HEAD), then `express.static` (GET/HEAD; serves
the asset when present, else falls through), then `app.get("*")` serving the
index document (GET/HEAD), then Express's default 404 for anything
unmatched. -/
def dispatch (assets : List String → Bool) (m : Method) (p : List String) :
    RouteTarget :=
  if m == .OPTIONS then .corsPreflight
  else if matchesGet m && p == ["api", "health"] then .health
  else if matchesGet m && p == ["api", "quotes", "random"] then .quotesRandom
  else if m == .POST && p == ["api", "quotes"] then .quotesCreate
  else if matchesGet m && p == ["api", "todos"] then .todosList
  else if m == .POST && p == ["api", "todos"] then .todosCreate
  else
    match todoIdSeg p, m with
    | some id, .PATCH => .todosUpdate id
    | some id, .DELETE => .todosDelete id
    | _, _ =>
      if matchesGet m then
        if assets p then .staticAsset p else .indexFallback
      else .expressNotFound

/-- Status of the non-API route targets (API targets depend on the handler). -/
def fallbackStatus : RouteTarget → Option Nat
  | .corsPreflight => some 204
  | .staticAsset _ => some 200
  | .indexFallback => some 200
  | .expressNotFound => some 404
  | _ => none

/-! ## Helper lemmas -/

theorem dropWhile_dropWhile {α : Type} {p : α → Bool} (l : List α) :
    (l.dropWhile p).dropWhile p = l.dropWhile p := by
  induction l with
  | nil => rfl
  | cons a t ih =>
    by_cases h : p a
    · simp [List.dropWhile_cons, h, ih]
    · simp [List.dropWhile_cons, h]

theorem pa_false_of_dropWhile_eq_self {α : Type} {p : α → Bool} {a : α} {t : List α}
    (h : (a :: t).dropWhile p = a :: t) : p a = false := by
  by_cases hp : p a
  · exfalso
    rw [List.dropWhile_cons_of_pos hp] at h
    have hle : (t.dropWhile p).length ≤ t.length := (List.dropWhile_sublist p).length_le
    have hlen := congrArg List.length h
    simp at hlen
    omega
  · simpa using hp

theorem dropWhile_reverse_of_dropWhile_eq_self {α : Type} {p : α → Bool} {x : List α}
    (hx : x.dropWhile p = x) :
    ((x.reverse.dropWhile p).reverse).dropWhile p = (x.reverse.dropWhile p).reverse := by
  obtain ⟨s, hs⟩ := List.dropWhile_suffix (l := x.reverse) p
  cases hrev : (x.reverse.dropWhile p).reverse with
  | nil => simp [hrev]
  | cons a t =>
    have hx2 : (x.reverse.dropWhile p).reverse ++ s.reverse = x := by
      have h2 := congrArg List.reverse hs
      simpa using h2
    have hx3 : x = a :: (t ++ s.reverse) := by
      rw [← hx2, hrev]; rfl
    have hpa : p a = false := by
      apply pa_false_of_dropWhile_eq_self (t := t ++ s.reverse)
      rw [← hx3]; exact hx
    simp [List.dropWhile_cons, hpa]

theorem trimData_trimData (l : List Char) : trimData (trimData l) = trimData l := by
  unfold trimData
  have h1 : (l.dropWhile isSpaceChar).dropWhile isSpaceChar = l.dropWhile isSpaceChar :=
    dropWhile_dropWhile l
  rw [dropWhile_reverse_of_dropWhile_eq_self h1, List.reverse_reverse,
    dropWhile_dropWhile]

theorem trimStr_trimStr (s : String) : trimStr (trimStr s) = trimStr s :=
  congrArg String.mk (trimData_trimData s.data)

theorem ne_empty_of_trimStr_ne_empty {s : String} (h : trimStr s ≠ "") : s ≠ "" := by
  intro he
  subst he
  exact h rfl

/-- Whether an optional body field holds a JSON string. -/
def isStringField : Option JVal → Bool
  | some (.jstr _) => true
  | _ => false

/-- Whether an optional body field holds a JSON boolean. -/
def isBoolField : Option JVal → Bool
  | some (.jbool _) => true
  | _ => false

theorem postTodo_blank (db : DB) (c : Option JVal) (s : String) (h : trimStr s = "") :
    postTodo db ⟨some (.jstr s), c⟩ = ⟨some ⟨400, .msg "Text is required"⟩, db, []⟩ := by
  by_cases hs : s = ""
  · subst hs; rfl
  · simp [postTodo, jsOrEmptyStr, jsTruthy, jsTrim, hs, h]

theorem postTodo_created (db : DB) (c : Option JVal) (s : String) (h : trimStr s ≠ "") :
    postTodo db ⟨some (.jstr s), c⟩ =
      ⟨some ⟨201, .todoDoc ⟨db.nextId, trimStr s, false, db.clock, db.clock⟩⟩,
       { db with todos := db.todos ++ [⟨db.nextId, trimStr s, false, db.clock, db.clock⟩],
                 nextId := db.nextId + 1, clock := db.clock + 1 },
       [.todoCreate (trimStr s)]⟩ := by
  have hs : s ≠ "" := ne_empty_of_trimStr_ne_empty h
  simp [postTodo, jsOrEmptyStr, jsTruthy, jsTrim, hs, h, todoCreate, trimStr_trimStr]

theorem patchTodoRun_reaches_storage (db : DB) (idStr : String) (u : TodoUpdates)
    (hu : u.isEmpty = false) :
    (patchTodoRun db idStr u).ops = [.todoFindByIdAndUpdate idStr] ∧
      ((patchTodoRun db idStr u).status = some 500 ∨
        (patchTodoRun db idStr u).status = some 404 ∨
        (patchTodoRun db idStr u).status = some 200) := by
  unfold patchTodoRun
  rcases h2 : todoFindByIdAndUpdate db idStr u with e | ⟨topt, db2⟩
  · simp [hu, Outcome.status]
  · rcases topt with _ | t <;> simp [hu, Outcome.status]

theorem patchTodoRun_400_ops (db : DB) (idStr : String) (u : TodoUpdates) :
    (patchTodoRun db idStr u).status = some 400 → (patchTodoRun db idStr u).ops = [] := by
  by_cases hu : u.isEmpty = true
  · simp [patchTodoRun, hu]
  · intro h
    obtain ⟨_, hstat⟩ :=
      patchTodoRun_reaches_storage db idStr u (by simpa using hu)
    rcases hstat with h2 | h2 | h2 <;> rw [h] at h2 <;> simp at h2

/-! ## Claims -/

/-- C3: a PATCH /api/todos/:id request whose body has neither a string `text`
field nor a boolean `completed` field gets a 400 "No valid fields to update"
response, issues no storage operation, and leaves the database unchanged. -/
theorem patch_no_valid_fields_spec (db : DB) (idStr : String) (body : TodoBody)
    (ht : isStringField body.text = false) (hc : isBoolField body.completed = false) :
    patchTodo db idStr body = ⟨some ⟨400, .msg "No valid fields to update"⟩, db, []⟩ := by
  rcases body with ⟨tf, cf⟩
  rcases tf with _ | (_ | b | n | s) <;> rcases cf with _ | (_ | b2 | n2 | s2) <;>
    simp_all [patchTodo, patchCompleted, patchTodoRun, TodoUpdates.isEmpty,
      isStringField, isBoolField]

/-- Witness for C3 at a concrete request. -/
theorem patch_no_valid_fields_witness :
    patchTodo emptyDB "abc" ⟨some (.jnum 3), some (.jstr "y")⟩ =
      ⟨some ⟨400, .msg "No valid fields to update"⟩, emptyDB, []⟩ :=
  patch_no_valid_fields_spec emptyDB "abc" ⟨some (.jnum 3), some (.jstr "y")⟩ rfl rfl

/-- C4: POST /api/todos with a string text that is empty after trimming (or a
missing text) responds 400 and creates nothing; with a non-blank string text
it inserts a todo carrying the trimmed text, completed = false, a fresh
identifier and timestamps, and returns it with status 201. -/
theorem create_todo_spec (db : DB) (c : Option JVal) :
    (∀ s, trimStr s = "" →
      postTodo db ⟨some (.jstr s), c⟩ = ⟨some ⟨400, .msg "Text is required"⟩, db, []⟩) ∧
    (postTodo db ⟨none, c⟩ = ⟨some ⟨400, .msg "Text is required"⟩, db, []⟩) ∧
    (∀ s, trimStr s ≠ "" →
      postTodo db ⟨some (.jstr s), c⟩ =
        ⟨some ⟨201, .todoDoc ⟨db.nextId, trimStr s, false, db.clock, db.clock⟩⟩,
         { db with todos := db.todos ++ [⟨db.nextId, trimStr s, false, db.clock, db.clock⟩],
                   nextId := db.nextId + 1, clock := db.clock + 1 },
         [.todoCreate (trimStr s)]⟩) :=
  ⟨fun s h => postTodo_blank db c s h, rfl, fun s h => postTodo_created db c s h⟩

/-- Witness for C4 at a concrete request. -/
theorem create_todo_witness :
    postTodo emptyDB ⟨some (.jstr " hi "), none⟩ =
      ⟨some ⟨201, .todoDoc ⟨0, "hi", false, 0, 0⟩⟩,
       ⟨[⟨0, "hi", false, 0, 0⟩], [], 1, 1⟩, [.todoCreate "hi"]⟩ := by
  have h := (create_todo_spec emptyDB none).2.2 " hi " (by decide)
  exact h.trans (by decide)

/-- C9: a PATCH body with a non-string text together with a boolean completed
raises no validation error: the storage update is issued, and when the todo
exists only the completed field changes (text is left as stored). -/
theorem patch_nonstring_text_ignored (db : DB) (idStr : String) (v : JVal) (b : Bool)
    (hv : isStringField (some v) = false) :
    (patchTodo db idStr ⟨some v, some (.jbool b)⟩).ops = [.todoFindByIdAndUpdate idStr] ∧
    (patchTodo db idStr ⟨some v, some (.jbool b)⟩).status ≠ some 400 ∧
    (∀ n t, parseObjectId idStr = some n →
      db.todos.find? (fun u => u.id == n) = some t →
      (patchTodo db idStr ⟨some v, some (.jbool b)⟩).resp =
        some ⟨200, .todoDoc ⟨t.id, t.text, b, t.createdAt, db.clock⟩⟩) := by
  have hstep : patchTodo db idStr ⟨some v, some (.jbool b)⟩ =
      patchTodoRun db idStr ⟨none, some b⟩ := by
    rcases v with _ | b2 | n2 | s2 <;>
      simp_all [patchTodo, patchCompleted, isStringField]
  rw [hstep]
  obtain ⟨hops, hstat⟩ :=
    patchTodoRun_reaches_storage db idStr ⟨none, some b⟩ rfl
  refine ⟨hops, ?_, ?_⟩
  · rcases hstat with h | h | h <;> rw [h] <;> simp
  · intro n t hn hfind
    have hupd : todoFindByIdAndUpdate db idStr ⟨none, some b⟩ =
        .ok (some ⟨t.id, t.text, b, t.createdAt, db.clock⟩,
          { db with
              todos := db.todos.map
                (fun u2 => if u2.id == n then ⟨t.id, t.text, b, t.createdAt, db.clock⟩ else u2),
              clock := db.clock + 1 }) := by
      unfold todoFindByIdAndUpdate
      rw [hn]
      simp [hfind, applyTodoUpdates]
    simp [patchTodoRun, TodoUpdates.isEmpty, hupd]

/-- Witness for C9 at a concrete request. -/
theorem patch_nonstring_text_ignored_witness :
    (patchTodo ⟨[⟨1, "x", false, 0, 0⟩], [], 2, 1⟩ "000000000000000000000001"
        ⟨some (.jnum 7), some (.jbool true)⟩).resp =
      some ⟨200, .todoDoc ⟨1, "x", true, 0, 1⟩⟩ := by
  have h := (patch_nonstring_text_ignored ⟨[⟨1, "x", false, 0, 0⟩], [], 2, 1⟩
      "000000000000000000000001" (.jnum 7) true rfl).2.2 1 ⟨1, "x", false, 0, 0⟩
      (by decide) (by decide)
  exact h.trans (by decide)

/-- C10: POST /api/quotes with `quotes` being the empty array succeeds with
201 and an empty array, creating no documents and raising no validation
error, while still issuing the (empty) insertMany storage call. -/
theorem post_quotes_empty_batch (db : DB) (t a : Option JVal) :
    postQuotes db ⟨t, a, some (.arr [])⟩ =
      ⟨some ⟨201, .quoteList []⟩, db, [.quoteInsertMany 0]⟩ := rfl

theorem eraseP_found_mem {l : List Todo} {n : Nat} {t : Todo}
    (hf : l.find? (fun u => u.id == n) = some t)
    (hnd : (l.map Todo.id).Nodup) :
    t ∉ l.eraseP (fun u => u.id == n) ∧
      ∀ u ∈ l, u.id ≠ n → u ∈ l.eraseP (fun u => u.id == n) := by
  obtain ⟨hpt, as, bs, hl, hall⟩ := List.find?_eq_some.mp hf
  subst hl
  have htid : t.id = n := by simpa using hpt
  have hnotas : ∀ a ∈ as, ¬(a.id == n) = true := by
    intro a ha
    have := hall a ha
    simpa using this
  have herase : (as ++ t :: bs).eraseP (fun u => u.id == n) = as ++ bs := by
    rw [List.eraseP_append_right (t :: bs) hnotas]
    simp [List.eraseP_cons, hpt]
  constructor
  · intro hmem
    rw [herase] at hmem
    rcases List.mem_append.mp hmem with h | h
    · exact hnotas t h hpt
    · have hmap : (as.map Todo.id ++ t.id :: bs.map Todo.id).Nodup := by
        simpa using hnd
      have h2 : t.id ∉ bs.map Todo.id :=
        (List.nodup_cons.mp hmap.of_append_right).1
      exact h2 (List.mem_map_of_mem Todo.id h)
  · intro u hu hne
    rw [herase]
    rcases List.mem_append.mp hu with h | h
    · exact List.mem_append.mpr (Or.inl h)
    · rcases List.mem_cons.mp h with h | h
      · exact absurd (h ▸ htid) hne
      · exact List.mem_append.mpr (Or.inr h)

/-- C6: DELETE /api/todos/:id with a well-formed identifier removes the todo
with that identifier and confirms with status 200 echoing the identifier;
when no such todo exists the response is 404 and the collection is
unchanged. -/
theorem delete_todo_spec (db : DB) (idStr : String) (n : Nat)
    (hid : parseObjectId idStr = some n) :
    (db.todos.find? (fun u => u.id == n) = none →
      deleteTodo db idStr =
        ⟨some ⟨404, .msg "Todo not found"⟩, db, [.todoFindByIdAndDelete idStr]⟩) ∧
    (∀ t, db.todos.find? (fun u => u.id == n) = some t →
      deleteTodo db idStr =
        ⟨some ⟨200, .deletedTodo idStr⟩,
         { db with todos := db.todos.eraseP (fun u => u.id == n) },
         [.todoFindByIdAndDelete idStr]⟩ ∧
      ((db.todos.map Todo.id).Nodup →
        t ∉ (deleteTodo db idStr).db.todos ∧
        ∀ u ∈ db.todos, u.id ≠ n → u ∈ (deleteTodo db idStr).db.todos)) := by
  constructor
  · intro hnone
    simp [deleteTodo, todoFindByIdAndDelete, hid, hnone]
  · intro t hfind
    have hdel : deleteTodo db idStr =
        ⟨some ⟨200, .deletedTodo idStr⟩,
         { db with todos := db.todos.eraseP (fun u => u.id == n) },
         [.todoFindByIdAndDelete idStr]⟩ := by
      simp [deleteTodo, todoFindByIdAndDelete, hid, hfind]
    refine ⟨hdel, fun hnd => ?_⟩
    have h2 := eraseP_found_mem hfind hnd
    rw [hdel]
    exact h2

/-- Witness for C6 at a concrete database and identifier. -/
theorem delete_todo_witness :
    deleteTodo ⟨[⟨1, "a", false, 0, 0⟩], [], 2, 1⟩ "000000000000000000000001" =
      ⟨some ⟨200, .deletedTodo "000000000000000000000001"⟩, ⟨[], [], 2, 1⟩,
       [.todoFindByIdAndDelete "000000000000000000000001"]⟩ := by
  have h := (delete_todo_spec ⟨[⟨1, "a", false, 0, 0⟩], [], 2, 1⟩
      "000000000000000000000001" 1 (by decide)).2 ⟨1, "a", false, 0, 0⟩ (by decide)
  exact h.1.trans (by decide)

/-- C7: GET /api/quotes/random on an empty collection returns 404 with no
default; on a non-empty collection the sampled document always belongs to the
collection, and with exactly one stored quote every draw returns that
quote with status 200. -/
theorem random_quote_spec :
    (∀ db r, db.quotes = [] →
      getRandomQuote db r =
        ⟨some ⟨404, .msg "No quotes found"⟩, db, [.quoteAggregateSample]⟩) ∧
    (∀ db q r, db.quotes = [q] →
      getRandomQuote db r = ⟨some ⟨200, .quoteDoc q⟩, db, [.quoteAggregateSample]⟩) ∧
    (∀ db r q, q ∈ quoteSample db r → q ∈ db.quotes) := by
  refine ⟨?_, ?_, ?_⟩
  · intro db r h
    simp [getRandomQuote, quoteSample, h]
  · intro db q r h
    simp [getRandomQuote, quoteSample, h, Nat.mod_one]
  · intro db r q h
    simp [quoteSample, Option.mem_toList] at h
    exact List.getElem?_mem h

/-- Witness for C7 at concrete databases. -/
theorem random_quote_witness :
    getRandomQuote emptyDB 5 =
      ⟨some ⟨404, .msg "No quotes found"⟩, emptyDB, [.quoteAggregateSample]⟩ ∧
    getRandomQuote ⟨[], [⟨0, "q", none, 0, 0⟩], 1, 1⟩ 7 =
      ⟨some ⟨200, .quoteDoc ⟨0, "q", none, 0, 0⟩⟩, ⟨[], [⟨0, "q", none, 0, 0⟩], 1, 1⟩,
       [.quoteAggregateSample]⟩ :=
  ⟨random_quote_spec.1 emptyDB 5 rfl,
   random_quote_spec.2.1 ⟨[], [⟨0, "q", none, 0, 0⟩], 1, 1⟩ ⟨0, "q", none, 0, 0⟩ 7 rfl⟩

/-- C5: GET /api/todos returns all stored todos sorted by creation time, most
recent first; an empty collection yields an empty 200 array; creating todo A
then todo B lists B before A. -/
theorem list_todos_spec :
    (∀ db, getTodos db = ⟨some ⟨200, .todoList (todoFindSorted db)⟩, db, [.todoFind]⟩ ∧
      List.Perm (todoFindSorted db) db.todos ∧
      List.Sorted createdDesc (todoFindSorted db)) ∧
    (∀ db, db.todos = [] →
      getTodos db = ⟨some ⟨200, .todoList []⟩, db, [.todoFind]⟩) ∧
    (∀ a b, trimStr a ≠ "" → trimStr b ≠ "" →
      (getTodos (postTodo (postTodo emptyDB ⟨some (.jstr a), none⟩).db
          ⟨some (.jstr b), none⟩).db).resp =
        some ⟨200, .todoList [⟨1, trimStr b, false, 1, 1⟩, ⟨0, trimStr a, false, 0, 0⟩]⟩) := by
  refine ⟨fun db => ⟨rfl, List.perm_insertionSort createdDesc db.todos,
    List.sorted_insertionSort createdDesc db.todos⟩,
    fun db h => by simp [getTodos, todoFindSorted, h], ?_⟩
  intro a b ha hb
  have h1 : (postTodo emptyDB ⟨some (.jstr a), none⟩).db =
      (⟨[⟨0, trimStr a, false, 0, 0⟩], [], 1, 1⟩ : DB) := by
    rw [postTodo_created emptyDB none a ha]
    rfl
  have h2 : (postTodo (⟨[⟨0, trimStr a, false, 0, 0⟩], [], 1, 1⟩ : DB)
      ⟨some (.jstr b), none⟩).db =
      (⟨[⟨0, trimStr a, false, 0, 0⟩, ⟨1, trimStr b, false, 1, 1⟩], [], 2, 2⟩ : DB) := by
    rw [postTodo_created _ none b hb]
    rfl
  rw [h1, h2]
  have hlt : ¬ createdDesc ⟨0, trimStr a, false, 0, 0⟩ ⟨1, trimStr b, false, 1, 1⟩ := by
    simp [createdDesc]
  simp [getTodos, todoFindSorted, List.insertionSort, List.orderedInsert, hlt]

/-- Witness for C5 at concrete todo texts. -/
theorem list_todos_witness :
    (getTodos (postTodo (postTodo emptyDB ⟨some (.jstr "A"), none⟩).db
        ⟨some (.jstr "B"), none⟩).db).resp =
      some ⟨200, .todoList [⟨1, "B", false, 1, 1⟩, ⟨0, "A", false, 0, 0⟩]⟩ := by
  have h := list_todos_spec.2.2 "A" "B" (by decide) (by decide)
  exact h.trans (by decide)

/-- C1 (amended): malformed inputs do not become 400 validation errors.  A
PATCH with a malformed identifier and an otherwise valid body, and a DELETE
with a malformed identifier, answer 500 (the ObjectId cast failure is caught
by the generic storage-error handler); POST /api/todos with a truthy
non-string text throws an uncaught TypeError before the try block, so no
response is produced at all. -/
theorem malformed_request_spec :
    (∀ db idStr b, parseObjectId idStr = none →
      (patchTodo db idStr ⟨none, some (.jbool b)⟩).status = some 500) ∧
    (∀ db idStr, parseObjectId idStr = none →
      (deleteTodo db idStr).status = some 500) ∧
    (∀ db v c, jsTruthy v = true → isStringField (some v) = false →
      (postTodo db ⟨some v, c⟩).resp = none) := by
  refine ⟨?_, ?_, ?_⟩
  · intro db idStr b hid
    simp [patchTodo, patchCompleted, patchTodoRun, TodoUpdates.isEmpty,
      todoFindByIdAndUpdate, hid, Outcome.status]
  · intro db idStr hid
    simp [deleteTodo, todoFindByIdAndDelete, hid, Outcome.status]
  · intro db v c htr hnstr
    rcases v with _ | b2 | n2 | s2 <;>
      simp_all [postTodo, jsOrEmptyStr, jsTruthy, jsTrim, isStringField]

/-- C1 counterexample: concrete malformed requests observed at 500 (or with
no response), never the 400-class the claim requires. -/
theorem malformed_request_counterexample :
    (deleteTodo emptyDB "abc").status = some 500 ∧
    (deleteTodo emptyDB "abc").status ≠ some 400 ∧
    (patchTodo emptyDB "abc" ⟨none, some (.jbool true)⟩).status = some 500 ∧
    (postTodo emptyDB ⟨some (.jnum 5), none⟩).resp = none := by decide

/-- Witness for C1 (amended) at concrete requests. -/
theorem malformed_request_witness :
    (patchTodo emptyDB "zzz" ⟨none, some (.jbool false)⟩).status = some 500 ∧
    (deleteTodo emptyDB "zzz").status = some 500 ∧
    (postTodo emptyDB ⟨some (.jnum 2), none⟩).resp = none :=
  ⟨malformed_request_spec.1 emptyDB "zzz" false (by decide),
   malformed_request_spec.2.1 emptyDB "zzz" (by decide),
   malformed_request_spec.2.2 emptyDB (.jnum 2) none (by decide) (by decide)⟩

/-- C2 (amended): the todo handlers and the single-quote path signal 400
validation errors before any storage call (a 400 response comes with an
empty storage-operation list), but the batch-quote path always issues the
insertMany storage call with no prior validation, even when an element's
text is empty or whitespace-only. -/
theorem validation_before_storage_spec :
    (∀ db idStr body, (patchTodo db idStr body).status = some 400 →
      (patchTodo db idStr body).ops = []) ∧
    (∀ db body, (postTodo db body).status = some 400 → (postTodo db body).ops = []) ∧
    (∀ db body, (postQuotes db body).status = some 400 → (postQuotes db body).ops = []) ∧
    (∀ db t a items,
      (postQuotes db ⟨t, a, some (.arr items)⟩).ops = [.quoteInsertMany items.length]) := by
  refine ⟨?_, ?_, ?_, ?_⟩
  · intro db idStr body h
    rcases body with ⟨tf, cf⟩
    rcases tf with _ | (_ | b2 | n2 | s2)
    · exact patchTodoRun_400_ops db idStr _ h
    · exact patchTodoRun_400_ops db idStr _ h
    · exact patchTodoRun_400_ops db idStr _ h
    · exact patchTodoRun_400_ops db idStr _ h
    · by_cases hs : trimStr s2 = ""
      · simp [patchTodo, hs]
      · have h2 : patchTodo db idStr ⟨some (.jstr s2), cf⟩ =
            patchTodoRun db idStr ⟨some (trimStr s2), patchCompleted ⟨some (.jstr s2), cf⟩⟩ := by
          simp [patchTodo, hs]
        rw [h2] at h ⊢
        exact patchTodoRun_400_ops db idStr _ h
  · intro db body h
    rcases body with ⟨tf, cf⟩
    rcases htr : jsTrim (jsOrEmptyStr tf) with e | text
    · simp [postTodo, htr, Outcome.status] at h
    · by_cases ht : text = ""
      · simp [postTodo, htr, ht]
      · rcases hc : todoCreate db text with e2 | ⟨t2, db2⟩
        · simp [postTodo, htr, ht, hc, Outcome.status] at h
        · simp [postTodo, htr, ht, hc, Outcome.status] at h
  · intro db body h
    rcases body with ⟨tf, af, qf⟩
    rcases qf with _ | (items | v)
    · rcases htr : jsTrim (jsOrEmptyStr tf) with e | text
      · simp [postQuotes, htr, Outcome.status] at h
      · by_cases ht : text = ""
        · simp [postQuotes, htr, ht]
        · rcases hc : quoteCreateStore db text af with e2 | ⟨q2, db2⟩
          · simp [postQuotes, htr, ht, hc, Outcome.status] at h
          · simp [postQuotes, htr, ht, hc, Outcome.status] at h
    · rcases him : quoteInsertMany db items with e | ⟨qs, db2⟩
      · simp [postQuotes, him, Outcome.status] at h
      · simp [postQuotes, him, Outcome.status] at h
    · rcases htr : jsTrim (jsOrEmptyStr tf) with e | text
      · simp [postQuotes, htr, Outcome.status] at h
      · by_cases ht : text = ""
        · simp [postQuotes, htr, ht]
        · rcases hc : quoteCreateStore db text af with e2 | ⟨q2, db2⟩
          · simp [postQuotes, htr, ht, hc, Outcome.status] at h
          · simp [postQuotes, htr, ht, hc, Outcome.status] at h
  · intro db t a items
    rcases him : quoteInsertMany db items with e | ⟨qs, db2⟩ <;>
      simp [postQuotes, him]

/-- C2 counterexample: a batch insert with a whitespace-only text element
still issues the insertMany storage call (and comes back as a 500, not a
pre-storage validation error). -/
theorem validation_before_storage_counterexample :
    (postQuotes emptyDB ⟨none, none, some (.arr [⟨some (.jstr " "), none⟩])⟩).ops =
      [.quoteInsertMany 1] ∧
    (postQuotes emptyDB ⟨none, none, some (.arr [⟨some (.jstr " "), none⟩])⟩).status =
      some 500 := by decide

/-- Witness for C2 (amended) at concrete requests. -/
theorem validation_before_storage_witness :
    (postTodo emptyDB ⟨some (.jstr "  "), none⟩).ops = [] ∧
    (postQuotes emptyDB ⟨some (.jstr "q"), none, some (.arr [])⟩).ops =
      [.quoteInsertMany 0] :=
  ⟨validation_before_storage_spec.2.1 emptyDB ⟨some (.jstr "  "), none⟩ (by decide),
   validation_before_storage_spec.2.2.2 emptyDB (some (.jstr "q")) none []⟩

/-- C8 (amended): only GET and HEAD requests to paths that match no API
route are served from the static layer — the asset when one exists, else the
index document, both with status 200 (serve-static and `app.get("*")` both
handle HEAD); every OPTIONS request is answered 204 by the cors middleware
before the static layers; a request with any other method to such a path
falls past both static layers and receives the framework's default 404. -/
theorem spa_fallback_spec :
    (∀ assets m p, isApiPath p = false → (m = Method.GET ∨ m = Method.HEAD) →
      dispatch assets m p =
        (if assets p then RouteTarget.staticAsset p else RouteTarget.indexFallback) ∧
      fallbackStatus (dispatch assets m p) = some 200) ∧
    (∀ assets p,
      dispatch assets Method.OPTIONS p = RouteTarget.corsPreflight ∧
      fallbackStatus (dispatch assets Method.OPTIONS p) = some 204) ∧
    (∀ assets m p, isApiPath p = false →
      m ≠ Method.GET → m ≠ Method.HEAD → m ≠ Method.OPTIONS →
      dispatch assets m p = RouteTarget.expressNotFound ∧
      fallbackStatus (dispatch assets m p) = some 404) := by
  have key : ∀ (assets : List String → Bool) (m : Method) (p : List String),
      isApiPath p = false →
      dispatch assets m p =
        (if m == Method.OPTIONS then RouteTarget.corsPreflight
        else if matchesGet m then
          (if assets p then RouteTarget.staticAsset p else RouteTarget.indexFallback)
        else RouteTarget.expressNotFound) := by
    intro assets m p hp
    simp only [isApiPath, Bool.or_eq_false_iff] at hp
    obtain ⟨⟨⟨⟨h1, h2⟩, h3⟩, h4⟩, h5⟩ := hp
    have h6 : todoIdSeg p = none := Option.not_isSome_iff_eq_none.mp (by simp [h5])
    rcases m <;> simp [dispatch, matchesGet, h1, h2, h3, h4, h6]
  refine ⟨?_, ?_, ?_⟩
  · intro assets m p hp hm
    rcases hm with hm | hm <;> subst hm <;>
      rw [key assets _ p hp] <;>
      by_cases ha : assets p <;> simp [matchesGet, ha, fallbackStatus]
  · intro assets p
    constructor
    · simp [dispatch]
    · simp [dispatch, fallbackStatus]
  · intro assets m p hp hg hh ho
    rw [key assets m p hp]
    have h7 : (m == Method.OPTIONS) = false := by simpa using ho
    have h8 : matchesGet m = false := by
      rcases m <;> simp_all [matchesGet]
    simp [h7, h8, fallbackStatus]

/-- C8 counterexample: a POST to an unmatched path is not served the index
document with 200 — it gets the framework's 404. -/
theorem spa_fallback_counterexample :
    isApiPath ["hello"] = false ∧
    dispatch (fun _ => false) Method.POST ["hello"] = RouteTarget.expressNotFound ∧
    fallbackStatus (dispatch (fun _ => false) Method.POST ["hello"]) = some 404 := by
  decide

/-- Witness for C8 (amended) at concrete requests. -/
theorem spa_fallback_witness :
    dispatch (fun _ => false) Method.HEAD ["about"] = RouteTarget.indexFallback ∧
    dispatch (fun _ => false) Method.OPTIONS ["about"] = RouteTarget.corsPreflight ∧
    dispatch (fun _ => false) Method.PUT ["about"] = RouteTarget.expressNotFound := by
  refine ⟨?_, ?_, ?_⟩
  · have h := (spa_fallback_spec.1 (fun _ => false) Method.HEAD ["about"] (by decide)
      (Or.inr rfl)).1
    exact h.trans (by decide)
  · exact (spa_fallback_spec.2.1 (fun _ => false) ["about"]).1
  · exact (spa_fallback_spec.2.2 (fun _ => false) Method.PUT ["about"] (by decide)
      (by decide) (by decide) (by decide)).1

end NewTodo
